import Mathlib

/-!
Verification of the ai-browser-agent core against its specification.

The development shallowly embeds the Python sources:
  * `src/agent/core.py`   — `AICore._trim_context` and `AICore.run_agent_loop`
  * `src/tools/tool_manager.py` — `ToolManager.call_tool`,
    `parse_google_docstring`, `python_type_to_json_type`,
    `ToolManager.get_tool_definitions`

Conventions used throughout the embedding:
  * Python dicts holding messages become the `Message` structure; an absent
    `tool_calls` key (Python `None`) is modelled as the empty list.
  * Machine integers are `Nat`/`Int`; Python raising an exception inside a
    function that the claims treat as an operation is modelled by an
    `Option`/`Except` result.
  * External collaborators (the OpenAI client, the browser page, `json.loads`)
    are parameters of the loop model: the loop consumes a script of
    `LLMOutcome`s, one per `chat.completions.create` call.
-/

/-! ## Data model (spec §3) -/

/-- Message roles (`"system" | "user" | "assistant" | "tool"`). -/
inductive Role
  | system
  | user
  | assistant
  | tool
deriving DecidableEq, Repr

/-- A tool call carried by an assistant message: `id`, `function.name`,
`function.arguments` (the raw JSON text, still unparsed). -/
structure ToolCall where
  id : String
  name : String
  arguments : String
deriving DecidableEq, Repr

/-- One entry of `AICore.messages`.  `tool_calls := []` models a Python
`None`/absent key; `tool_call_id`/`name` are only set on tool-result
messages. -/
structure Message where
  role : Role
  content : String
  tool_calls : List ToolCall := []
  tool_call_id : Option String := none
  name : Option String := none
deriving DecidableEq, Repr

/-- `{"role": "system", "content": c}` -/
def systemMsg (c : String) : Message := ⟨Role.system, c, [], none, none⟩

/-- `{"role": "user", "content": c}` -/
def userMsg (c : String) : Message := ⟨Role.user, c, [], none, none⟩

/-- The assistant dict appended at src/agent/core.py:214-234. -/
def assistantMsg (c : String) (tcs : List ToolCall) : Message :=
  ⟨Role.assistant, c, tcs, none, none⟩

/-- The tool-result dict appended at src/agent/core.py:263-270. -/
def toolMsg (callId toolName content : String) : Message :=
  ⟨Role.tool, content, [], some callId, some toolName⟩

/-- `msg.get("role") == "system"` -/
def isSystem (m : Message) : Bool := m.role == Role.system

/-- `msg.get("role") == "user"` -/
def isUser (m : Message) : Bool := m.role == Role.user

/-! ## ContextManager: `AICore._trim_context` (src/agent/core.py:57-103) -/

/-- Python slice `xs[-k:]` for `k > 0`: the last `k` elements. -/
def lastSlice {α : Type} (k : Nat) (xs : List α) : List α :=
  xs.drop (xs.length - k)

/-- `AICore._trim_context`, for message list `msgs` and
`max_context_messages = maxCtx`.  Returns `none` exactly where the Python
code raises: when the list is over budget and contains no user-role message,
`first_user_idx` stays `None` and `self.messages[first_user_idx + 1 :]`
raises `TypeError` (`None + 1`).  Every other path returns the new list.
`keepCount` is computed in `Int` because Python subtraction does not
truncate. -/
def trimContext (maxCtx : Nat) (msgs : List Message) : Option (List Message) :=
  if msgs.length ≤ maxCtx then
    some msgs
  else
    let systemIdx? := msgs.findIdx? isSystem
    let firstUserIdx? := msgs.findIdx? isUser
    let essential :=
      (match systemIdx? with
       | some si => (msgs[si]?).toList
       | none => []) ++
      (match firstUserIdx? with
       | some fu => if firstUserIdx? ≠ systemIdx? then (msgs[fu]?).toList else []
       | none => [])
    match firstUserIdx? with
    | none => none
    | some fu =>
      let recent := (msgs.drop (fu + 1)).filter (fun m => !(isSystem m))
      let keepCount : Int := (maxCtx : Int) - essential.length
      if 0 < keepCount then
        some (essential ++ lastSlice keepCount.toNat recent)
      else
        some essential

/-- `n` successive `trim` calls; `none` as soon as one of them raises. -/
def trimN (maxCtx : Nat) : Nat → List Message → Option (List Message)
  | 0, msgs => some msgs
  | n + 1, msgs => (trimContext maxCtx msgs).bind (trimN maxCtx n)

/-! ## ToolRegistry: src/tools/tool_manager.py -/

/-- A parsed tool-argument mapping: what `json.loads` produced from an
arguments payload and what `call_tool` unpacks as `**kwargs`. -/
abbrev ArgsMap := List (String × String)

/-- A registered callable.  Invoking it either returns normally (`ok`, the
value already stringified — `str(result)` is the identity in the model) or
raises an exception with the given text (`error`). -/
abbrev ToolFun := ArgsMap → Except String String

/-- `ToolManager.call_tool` (src/tools/tool_manager.py:106-124): a missing
name and an exception raised by the callable both become ordinary result
strings; no path escapes. -/
def call_tool (tools : List (String × ToolFun)) (toolName : String)
    (kwargs : ArgsMap) : String :=
  match tools.lookup toolName with
  | none => s!"Ошибка: инструмент '{toolName}' не найден."
  | some f =>
    match f kwargs with
    | .ok result => result
    | .error e => s!"Ошибка при выполнении инструмента '{toolName}': {e}"

/-- Python annotations as `get_tool_definitions` sees them.  `optionalOf t`
models `Optional[t]` (a `Union` of `t` with `NoneType`); `unknown` models any
other annotation, which falls outside `type_mapping`. -/
inductive PyType
  | str
  | int
  | float
  | bool
  | list
  | dict
  | optionalOf (t : PyType)
  | unknown (typeName : String)
deriving DecidableEq, Repr

/-- `python_type_to_json_type` (src/tools/tool_manager.py:38-69):
`Optional[T]` unwraps to the non-`None` member; anything outside the mapping
falls back to `"string"`. -/
def python_type_to_json_type : PyType → String
  | .str => "string"
  | .int => "integer"
  | .float => "number"
  | .bool => "boolean"
  | .list => "array"
  | .dict => "object"
  | .optionalOf t => python_type_to_json_type t
  | .unknown _ => "string"

/-- `[a-zA-Z0-9_]`, the ASCII core of the regex class `\w` (the docstrings'
parameter names are ASCII). -/
def isWordChar (c : Char) : Bool := c.isAlphanum || c == '_'

/-- `re.match(r"\s*(\w+):\s*(.*)", line)` followed by `param_desc.strip()`:
after optional leading whitespace a nonempty word-character run must be
followed immediately by a colon (word characters are never `:`, so greedy
matching needs no backtracking); stripping the capture subsumes the `\s*`
after the colon. -/
def matchArgLine (line : String) : Option (String × String) :=
  let rest := line.dropWhile Char.isWhitespace
  let pname := rest.takeWhile isWordChar
  let after := rest.drop pname.length
  if pname.isEmpty then none
  else if after.startsWith ":" then some (pname, (after.drop 1).trim)
  else none

/-- Python dict assignment `d[k] = v`: overwrite in place if the key exists,
otherwise append (insertion order preserved). -/
def dictInsert (k v : String) (d : List (String × String)) :
    List (String × String) :=
  if d.any (fun p => p.1 == k) then
    d.map (fun p => if p.1 == k then (k, v) else p)
  else d ++ [(k, v)]

/-- Result of `parse_google_docstring`. -/
structure DocInfo where
  description : String
  params : List (String × String)
deriving DecidableEq, Repr

/-- `parse_google_docstring` (src/tools/tool_manager.py:8-35).
`doc.split("Args:")` indexes `parts[1]`, so only the segment between the
first and second occurrence of `"Args:"` feeds the parameter table. -/
def parse_google_docstring (doc : String) : DocInfo :=
  if doc = "" then ⟨"", []⟩
  else
    let parts := doc.splitOn "Args:"
    let description := (parts.headD "").trim
    let params :=
      match parts with
      | _ :: argSection :: _ =>
        (argSection.trim.splitOn "\n").foldl
          (fun d line =>
            match matchArgLine line with
            | some (k, v) => dictInsert k v d
            | none => d) []
      | _ => []
    ⟨description, params⟩

/-- Python default values occurring in tool signatures. -/
inductive PyValue
  | str (s : String)
  | int (n : Int)
deriving DecidableEq, Repr

/-- One parameter of `inspect.signature(func)`: `annotation := none` models
`inspect.Parameter.empty`, `default := none` a missing default. -/
structure PyParam where
  name : String
  annotation : Option PyType := none
  default : Option PyValue := none
deriving DecidableEq, Repr

/-- What `inspect` and `__doc__` expose of one registered callable. -/
structure PyFunc where
  params : List PyParam
  doc : String
deriving DecidableEq, Repr

/-- The JSON-schema object generated for one parameter (`default`/`enum`
keys present only when set). -/
structure ParamSchema where
  type : String
  description : String
  default : Option PyValue := none
  enum : Option (List String) := none
deriving DecidableEq, Repr

/-- One generated definition (the inner `"function"` object of the wire
shape; the constant outer `{"type": "function"}` wrapper is omitted). -/
structure FunctionDef where
  name : String
  description : String
  properties : List (String × ParamSchema)
  required : List String
deriving DecidableEq, Repr

/-- The per-tool body of `ToolManager.get_tool_definitions`
(src/tools/tool_manager.py:137-188).  The fold accumulates `properties` and
`required` in parameter order; the `direction` special case fires only when
the registered name is `scroll_page`. -/
def buildToolDefinition (toolName : String) (func : PyFunc) : FunctionDef :=
  let docInfo := parse_google_docstring func.doc
  let pr := func.params.foldl
    (fun (acc : List (String × ParamSchema) × List String) p =>
      if p.name == "self" || p.name == "args" || p.name == "kwargs" then acc
      else
        let ptype :=
          match p.annotation with
          | some t => python_type_to_json_type t
          | none => "string"
        let schema : ParamSchema :=
          ⟨ptype, (docInfo.params.lookup p.name).getD "", p.default, none⟩
        (acc.1 ++ [(p.name, schema)],
         if p.default = none then acc.2 ++ [p.name] else acc.2))
    ([], [])
  let properties :=
    if toolName == "scroll_page" && pr.1.any (fun q => q.1 == "direction") then
      pr.1.map (fun q =>
        if q.1 == "direction" then
          (q.1, { q.2 with enum := some ["down", "up", "top", "bottom"] })
        else q)
    else pr.1
  ⟨toolName,
   if docInfo.description ≠ "" then docInfo.description
   else s!"Выполняет действие: {toolName}",
   properties, pr.2⟩

/-- `ToolManager.get_tool_definitions` over the registration-ordered map. -/
def get_tool_definitions (tools : List (String × PyFunc)) : List FunctionDef :=
  tools.map (fun t => buildToolDefinition t.1 t.2)

/-- A hypothetical registered tool that is not named `scroll_page` but whose
signature mirrors `BrowserTools.scroll_page` (`direction: str = "down"`,
`pixels: int = 500`). -/
def turnPageFunc : PyFunc :=
  ⟨[⟨"self", none, none⟩,
    ⟨"direction", some PyType.str, some (PyValue.str "down")⟩,
    ⟨"pixels", some PyType.int, some (PyValue.int 500)⟩], ""⟩

/-- The reflective data of `BrowserTools.scroll_page`
(src/tools/browser_tools.py:78): `direction: str = "down"`,
`pixels: int = 500` (docstring elided — it only affects descriptions). -/
def scrollPageFunc : PyFunc :=
  ⟨[⟨"self", none, none⟩,
    ⟨"direction", some PyType.str, some (PyValue.str "down")⟩,
    ⟨"pixels", some PyType.int, some (PyValue.int 500)⟩], ""⟩

/-- The schema `get_tool_definitions` generates for `scroll_page`'s
`direction` parameter. -/
def scrollDirectionSchema : ParamSchema :=
  ⟨"string", "", some (PyValue.str "down"), some ["down", "up", "top", "bottom"]⟩

/-! ## AgentLoop: `AICore.run_agent_loop` (src/agent/core.py:105-298) -/

/-- Outcome of one `chat.completions.create` call, as the loop classifies it
(src/agent/core.py:153-207): a response message — `content := ""` models a
Python `None`/empty content, both falsy under `if response_message.content:`
— or one of the caught exception classes. -/
inductive LLMOutcome
  | success (content : String) (tool_calls : List ToolCall)
  | authError
  | rateLimit (insufficientQuota : Bool)
  | apiError (msg : String)
  | unexpectedError (msg : String)
deriving DecidableEq, Repr

/-- Why `run_agent_loop` returned. -/
inductive StopReason
  | done (finalMessage : String)
  | stoppedOnLimit
  | fatalAuthError
  | fatalQuotaError
  | noPage
  | scriptExhausted
deriving DecidableEq, Repr

/-- Result of a run: final transcript, iteration counter, stop reason, the
number of decision calls issued, and the log of dispatched tool calls.
`scriptExhausted` is a modelling artifact: the supplied outcome script ran
out before the loop stopped. -/
structure LoopResult where
  messages : List Message
  currentIteration : Nat
  reason : StopReason
  decisionAttempts : Nat
  toolInvocations : List (String × ArgsMap)
deriving DecidableEq, Repr

/-- The loop's external collaborators: the context budget
(`max_context_messages`), whether `browser_controller.page` is set, the
registered tools, `json.loads` on argument payloads (abstract: `none` models
`json.JSONDecodeError`), and the observation text assembled from the page
snapshot at each iteration. -/
structure AgentEnv where
  maxContextMessages : Nat
  hasPage : Bool
  tools : List (String × ToolFun)
  parseJson : String → Option ArgsMap
  observationText : Nat → String

/-- Corrective message on argument-parse failure (src/agent/core.py:248-251). -/
def invalidArgsMsg (toolName : String) : String :=
  s!"Ошибка: инструмент {toolName} получил невалидные аргументы JSON. Пожалуйста, проверь формат аргументов и попробуй снова."

/-- src/agent/core.py:197. -/
def apiErrorMsg (e : String) : String := s!"Ошибка API OpenAI: {e}"

/-- src/agent/core.py:203. -/
def unexpectedErrorMsg (e : String) : String := s!"Неожиданная ошибка: {e}"

/-- src/agent/core.py:289, instantiated with the text of the `TypeError`
that `_trim_context` raises when the over-budget list has no user message
(caught by the outer `except Exception` handler of the loop body). -/
def trimTypeErrorMsg : String :=
  "Произошла ошибка: unsupported operand type(s) for +: 'NoneType' and 'int'. Продолжаю работу..."

/-- `self.max_iterations` (src/agent/core.py:38). -/
def maxIterations : Nat := 50

/-- The body of `while self.current_iteration < self.max_iterations`
(src/agent/core.py:121-291), recursing on
`fuel = max_iterations - current_iteration`; the counter is incremented
unconditionally at the top of every pass, so the fuel strictly decreases and
`fuel = 0` is exactly the loop condition failing (the post-loop
iteration-limit report).  Per pass, in source order: trim (its `TypeError`
is caught by the outer handler, which appends an error message and
continues), the `page is None` check (`break`), the observation append, the
decision call consuming one script outcome (exception classification per
src/agent/core.py:161-207), the assistant append guarded by non-empty
content, then either the final answer (`break`) or the first requested tool
call — argument parse failure appends the corrective message and continues,
otherwise the tool is dispatched through `call_tool` and its result appended
as a tool message. -/
def runLoopAux (env : AgentEnv) :
    Nat → List Message → Nat → List LLMOutcome → Nat →
      List (String × ArgsMap) → LoopResult
  | 0, msgs, it, _, att, inv => ⟨msgs, it, .stoppedOnLimit, att, inv⟩
  | fuel + 1, msgs, it, script, att, inv =>
    let it1 := it + 1
    match trimContext env.maxContextMessages msgs with
    | none =>
      runLoopAux env fuel (msgs ++ [userMsg trimTypeErrorMsg]) it1 script att inv
    | some trimmed =>
      if env.hasPage = false then
        ⟨trimmed, it1, .noPage, att, inv⟩
      else
        let msgs2 := trimmed ++ [userMsg (env.observationText it1)]
        match script with
        | [] => ⟨msgs2, it1, .scriptExhausted, att, inv⟩
        | outcome :: rest =>
          let att1 := att + 1
          match outcome with
          | .authError => ⟨msgs2, it1, .fatalAuthError, att1, inv⟩
          | .rateLimit true => ⟨msgs2, it1, .fatalQuotaError, att1, inv⟩
          | .rateLimit false => runLoopAux env fuel msgs2 it1 rest att1 inv
          | .apiError e =>
            runLoopAux env fuel (msgs2 ++ [userMsg (apiErrorMsg e)]) it1 rest att1 inv
          | .unexpectedError e =>
            runLoopAux env fuel (msgs2 ++ [userMsg (unexpectedErrorMsg e)]) it1
              rest att1 inv
          | .success content tcs =>
            let msgs3 :=
              if content ≠ "" then msgs2 ++ [assistantMsg content tcs] else msgs2
            match tcs with
            | [] =>
              ⟨msgs3, it1,
               .done (if content = "" then "Задача выполнена." else content),
               att1, inv⟩
            | tc :: _ =>
              match env.parseJson tc.arguments with
              | none =>
                runLoopAux env fuel (msgs3 ++ [userMsg (invalidArgsMsg tc.name)])
                  it1 rest att1 inv
              | some kwargs =>
                runLoopAux env fuel
                  (msgs3 ++ [toolMsg tc.id tc.name
                    (call_tool env.tools tc.name kwargs)])
                  it1 rest att1 (inv ++ [(tc.name, kwargs)])

/-- `AICore.run_agent_loop` for a fresh `AICore`: the history is reset to
the single system message, the goal is appended as
`{"role": "user", "content": f"Цель: {user_prompt}"}`, the counter cleared,
and the while-loop runs. -/
def runAgentLoop (env : AgentEnv) (systemPrompt userPrompt : String)
    (script : List LLMOutcome) : LoopResult :=
  runLoopAux env maxIterations
    [systemMsg systemPrompt, userMsg s!"Цель: {userPrompt}"] 0 script 0 []

/-- The decision response requests at least one tool call. -/
def requestsToolCall : LLMOutcome → Bool
  | .success _ (_ :: _) => true
  | _ => false

/-- Walks the transcript carrying the previous message: every tool-role
message must be immediately preceded by an assistant message whose
`tool_calls` carry the id the tool message answers. -/
def toolLinkedAux : Option Message → List Message → Bool
  | _, [] => true
  | prev, m :: rest =>
    (if m.role == Role.tool then
       match prev with
       | some p =>
         p.role == Role.assistant &&
           m.tool_call_id.any (fun i => (p.tool_calls.map ToolCall.id).contains i)
       | none => false
     else true) && toolLinkedAux (some m) rest

/-- The spec §3 transcript invariant: exactly one system message, first, and
every tool message correlated to the immediately preceding assistant
message. -/
def transcriptInvariant (msgs : List Message) : Bool :=
  (match msgs with
   | m :: _ => isSystem m
   | [] => false) &&
  (msgs.filter isSystem).length == 1 &&
  toolLinkedAux none msgs

/-- No surviving tool-result message dangles: some assistant message in the
list carries the ToolCall it answers. -/
def noDanglingToolResult (msgs : List Message) : Bool :=
  msgs.all fun m =>
    !(m.role == Role.tool) ||
      m.tool_call_id.any (fun i =>
        msgs.any (fun a =>
          a.role == Role.assistant && (a.tool_calls.map ToolCall.id).contains i))

/-- A benign concrete environment: the default context budget 30, page
present, the click tool registered, `json.loads` succeeding exactly on
`"{}"`, constant page snapshot text. -/
def demoEnv : AgentEnv :=
  ⟨30, true,
   [("click_element",
     fun _ => Except.ok "Успешно нажат элемент с идентификатором ai-id-1.")],
   fun s => if s = "{}" then some [] else none,
   fun _ => "страница"⟩

/-! ### Facts about `trimContext` -/

theorem isUser_false_of_not_user {m : Message} (h : m.role ≠ Role.user) :
    isUser m = false := by
  simp [isUser, h]

theorem trimContext_cons₂ (maxCtx : Nat) (S G : Message) (rest : List Message)
    (hS : S.role = Role.system) (hG : G.role = Role.user) (hmax : 2 ≤ maxCtx) :
    ∃ rest₂, trimContext maxCtx (S :: G :: rest) = some (S :: G :: rest₂) := by
  unfold trimContext
  by_cases hlen : (S :: G :: rest).length ≤ maxCtx
  · exact ⟨rest, by rw [if_pos hlen]⟩
  · rw [if_neg hlen]
    have hsysS : isSystem S = true := by simp [isSystem, hS]
    have huserS : isUser S = false := by simp [isUser, hS]
    have huserG : isUser G = true := by simp [isUser, hG]
    have hfi : (S :: G :: rest).findIdx? isSystem = some 0 := by
      simp [List.findIdx?_cons, hsysS]
    have hfu : (S :: G :: rest).findIdx? isUser = some 1 := by
      simp [List.findIdx?_cons, huserS, huserG]
    simp only [hfi, hfu]
    have hess : ((((S :: G :: rest)[0]?).toList) ++
        (if (some 1 : Option Nat) ≠ some 0 then ((S :: G :: rest)[1]?).toList else []))
        = [S, G] := by simp
    rw [hess]
    by_cases hk : (0 : Int) < (maxCtx : Int) - ([S, G] : List Message).length
    · rw [if_pos hk]
      exact ⟨lastSlice ((maxCtx : Int) - ([S, G] : List Message).length).toNat
        ((List.drop 2 (S :: G :: rest)).filter (fun m => !(isSystem m))), rfl⟩
    · rw [if_neg hk]
      exact ⟨[], rfl⟩

/-- C2 (claim theorem below builds on this): a single trim keeps the leading
system message and the goal message in places 0 and 1. -/
theorem trimN_cons₂ (maxCtx : Nat) (S G : Message)
    (hS : S.role = Role.system) (hG : G.role = Role.user) (hmax : 2 ≤ maxCtx) :
    ∀ (n : Nat) (rest result : List Message),
      trimN maxCtx n (S :: G :: rest) = some result →
      ∃ rest₂, result = S :: G :: rest₂ := by
  intro n
  induction n with
  | zero =>
    intro rest result h
    exact ⟨rest, by simpa [trimN] using h.symm⟩
  | succ n ih =>
    intro rest result h
    obtain ⟨mid, hmid⟩ := trimContext_cons₂ maxCtx S G rest hS hG hmax
    rw [trimN, hmid] at h
    exact ih mid result (by simpa using h)

/-- C2: for every session state whose message list starts with the system
message followed by the original task-goal user message, and every
`max_size ≥ 2`, after any number of `trim` calls the first message is still
the system message and the second is still the task-goal message. -/
theorem trim_preserves_system_and_goal (maxCtx n : Nat) (S G : Message)
    (rest result : List Message)
    (hS : S.role = Role.system) (hG : G.role = Role.user) (hmax : 2 ≤ maxCtx)
    (h : trimN maxCtx n (S :: G :: rest) = some result) :
    result.head? = some S ∧ result[1]? = some G := by
  obtain ⟨rest₂, hr⟩ := trimN_cons₂ maxCtx S G hS hG hmax n rest result h
  subst hr
  exact ⟨rfl, by simp⟩

/-- Witness for C2: a five-message history trimmed twice down to a window of
two keeps the system prompt first and the goal second. -/
theorem trim_preserves_system_and_goal_witness :
    ([systemMsg "p", userMsg "Цель: задача"] : List Message).head? =
        some (systemMsg "p") ∧
      ([systemMsg "p", userMsg "Цель: задача"] : List Message)[1]? =
        some (userMsg "Цель: задача") :=
  trim_preserves_system_and_goal 2 2 (systemMsg "p") (userMsg "Цель: задача")
    [userMsg "n1", userMsg "n2", userMsg "n3"]
    [systemMsg "p", userMsg "Цель: задача"] rfl rfl (by decide) (by decide)

/-- C10: when the list is longer than `max_context_messages` and contains no
user-role message, `_trim_context` raises (`None + 1` in
`self.messages[first_user_idx + 1 :]`) instead of returning a trimmed list;
the embedding returns `none` there. -/
theorem trim_fails_without_user (maxCtx : Nat) (msgs : List Message)
    (h1 : maxCtx < msgs.length) (h2 : ∀ m ∈ msgs, m.role ≠ Role.user) :
    trimContext maxCtx msgs = none := by
  have hfu : msgs.findIdx? isUser = none := by
    rw [List.findIdx?_eq_none_iff]
    intro m hm
    exact isUser_false_of_not_user (h2 m hm)
  unfold trimContext
  rw [if_neg (by omega)]
  simp only [hfu]

/-- Witness for C10: a two-message history of a system and an assistant
message over a window of 1 makes `trim` fail. -/
theorem trim_fails_without_user_witness :
    trimContext 1 [systemMsg "p", assistantMsg "a" []] = none := by
  refine trim_fails_without_user 1 [systemMsg "p", assistantMsg "a" []]
    (by decide) ?_
  intro m hm
  fin_cases hm <;> decide

/-! ### ToolRegistry theorems -/

/-- C1: `call_tool` is total into `String` and never raises: an unregistered
name yields the not-found string, a callable that raises has its exception
converted to a descriptive string, and a normal return is passed through
unchanged. -/
theorem call_tool_never_raises (tools : List (String × ToolFun))
    (toolName : String) (kwargs : ArgsMap) :
    (tools.lookup toolName = none ∧
      call_tool tools toolName kwargs =
        s!"Ошибка: инструмент '{toolName}' не найден.") ∨
    (∃ f, tools.lookup toolName = some f ∧
      ((∃ r, f kwargs = .ok r ∧ call_tool tools toolName kwargs = r) ∨
       (∃ e, f kwargs = .error e ∧
         call_tool tools toolName kwargs =
           s!"Ошибка при выполнении инструмента '{toolName}': {e}"))) := by
  cases hl : tools.lookup toolName with
  | none => exact .inl ⟨rfl, by simp [call_tool, hl]⟩
  | some f =>
    refine .inr ⟨f, rfl, ?_⟩
    cases hf : f kwargs with
    | ok r => exact .inl ⟨r, rfl, by simp [call_tool, hl, hf]⟩
    | error e => exact .inr ⟨e, rfl, by simp [call_tool, hl, hf]⟩

/-- C8 counterexample: a registered tool that is not named `scroll_page` but
whose catalog entry contains a parameter literally named `direction` does not
receive the enum — the special case additionally requires the registered name
to be `scroll_page`, so the generated schema's enum stays absent. -/
theorem direction_enum_counterexample :
    (get_tool_definitions [("turn_page", turnPageFunc)]).map
        (fun d => (d.properties.lookup "direction").map (fun s => s.enum)) =
      [some none] := by rfl

theorem lookup_map_setEnum (E : List String) :
    ∀ xs : List (String × ParamSchema),
      (xs.map (fun q =>
          if q.1 == "direction" then
            (q.1, { q.2 with enum := some E })
          else q)).lookup "direction" =
        (xs.lookup "direction").map (fun s => { s with enum := some E })
  | [] => rfl
  | (a, b) :: rest => by
    have ih := lookup_map_setEnum E rest
    by_cases ha : a = "direction"
    · subst ha
      simp [List.lookup_cons]
    · have h1 : (a == "direction") = false := beq_eq_false_iff_ne.mpr ha
      have h2 : (("direction" : String) == a) = false :=
        beq_eq_false_iff_ne.mpr (Ne.symm ha)
      simp [List.lookup_cons, h1, h2, ha]
      simpa using ih

/-- C8 (amended): for the tool registered under the name `scroll_page`, a
catalog parameter literally named `direction` does carry the hardcoded
`enum: [down, up, top, bottom]`. -/
theorem scroll_page_direction_enum (func : PyFunc) (schema : ParamSchema)
    (h : (buildToolDefinition "scroll_page" func).properties.lookup
        "direction" = some schema) :
    schema.enum = some ["down", "up", "top", "bottom"] := by
  have hmain : ∀ props : List (String × ParamSchema),
      ((if ("scroll_page" == "scroll_page")
            && props.any (fun q => q.1 == "direction") then
          props.map (fun q =>
            if q.1 == "direction" then
              (q.1, { q.2 with enum := some ["down", "up", "top", "bottom"] })
            else q)
        else props).lookup "direction") = some schema →
      schema.enum = some ["down", "up", "top", "bottom"] := by
    intro props hp
    rw [beq_self_eq_true ("scroll_page" : String), Bool.true_and] at hp
    cases hany : props.any (fun q => q.1 == "direction") with
    | true =>
      rw [hany, if_pos rfl] at hp
      rw [lookup_map_setEnum] at hp
      obtain ⟨s0, hs0, hschema⟩ := Option.map_eq_some'.mp hp
      rw [← hschema]
    | false =>
      rw [hany, if_neg (by simp)] at hp
      have hnone : props.lookup "direction" = none := by
        rw [List.lookup_eq_none_iff]
        intro p hp2
        have hfalse := (List.any_eq_false.mp hany) p hp2
        simp only [bne_iff_ne, ne_eq]
        intro hcontra
        exact hfalse (by simp [← hcontra])
      rw [hnone] at hp
      exact (Option.noConfusion hp)
  exact hmain _ h

/-- Witness for C8 (amended): instantiated at the real `scroll_page`
signature, the generated `direction` schema carries the enum. -/
theorem scroll_page_direction_enum_witness :
    scrollDirectionSchema.enum = some ["down", "up", "top", "bottom"] :=
  scroll_page_direction_enum scrollPageFunc scrollDirectionSchema (by rfl)

/-! ### AgentLoop theorems -/

theorem trimContext_some_of_user (maxCtx : Nat) (msgs : List Message)
    (h : ∃ m ∈ msgs, isUser m = true) :
    ∃ t, trimContext maxCtx msgs = some t := by
  unfold trimContext
  by_cases hlen : msgs.length ≤ maxCtx
  · exact ⟨msgs, by rw [if_pos hlen]⟩
  · rw [if_neg hlen]
    obtain ⟨m, hm, hu⟩ := h
    cases hfi : msgs.findIdx? isUser with
    | none =>
      rw [List.findIdx?_eq_none_iff] at hfi
      rw [hfi m hm] at hu
      exact Bool.noConfusion hu
    | some fu =>
      simp only [hfi]
      repeat' split
      all_goals exact ⟨_, rfl⟩

theorem runLoopAux_all_tool_calls (env : AgentEnv) (hpage : env.hasPage = true) :
    ∀ (fuel : Nat) (msgs : List Message) (it att : Nat)
      (script : List LLMOutcome) (inv : List (String × ArgsMap)),
      (∀ o ∈ script, requestsToolCall o = true) →
      fuel ≤ script.length →
      (∃ m ∈ msgs, isUser m = true) →
      (runLoopAux env fuel msgs it script att inv).reason = .stoppedOnLimit ∧
      (runLoopAux env fuel msgs it script att inv).currentIteration = it + fuel ∧
      (runLoopAux env fuel msgs it script att inv).decisionAttempts = att + fuel := by
  have hpf : (env.hasPage = false) = False := by simp [hpage]
  intro fuel
  induction fuel with
  | zero =>
    intro msgs it att script inv _ _ _
    exact ⟨rfl, rfl, rfl⟩
  | succ fuel ih =>
    intro msgs it att script inv hall hlen huser
    obtain ⟨trimmed, htrim⟩ :=
      trimContext_some_of_user env.maxContextMessages msgs huser
    cases script with
    | nil => simp at hlen
    | cons o rest =>
      have ho := hall o (List.mem_cons_self o rest)
      have hall2 : ∀ x ∈ rest, requestsToolCall x = true :=
        fun x hx => hall x (List.mem_cons_of_mem o hx)
      have hlen2 : fuel ≤ rest.length := by
        simpa using Nat.le_of_succ_le_succ (by simpa using hlen)
      cases o with
      | authError => simp [requestsToolCall] at ho
      | rateLimit q => simp [requestsToolCall] at ho
      | apiError e => simp [requestsToolCall] at ho
      | unexpectedError e => simp [requestsToolCall] at ho
      | success content tcs =>
        cases tcs with
        | nil => simp [requestsToolCall] at ho
        | cons tc more =>
          by_cases hc : content = ""
          · subst hc
            have hcf : (("" : String) ≠ "") = False := by simp
            cases hp : env.parseJson tc.arguments with
            | none =>
              simp only [runLoopAux, htrim, hpf, if_false, hcf, hp]
              obtain ⟨r1, r2, r3⟩ := ih
                ((trimmed ++ [userMsg (env.observationText (it + 1))]) ++
                  [userMsg (invalidArgsMsg tc.name)])
                (it + 1) (att + 1) rest inv hall2 hlen2
                ⟨userMsg (env.observationText (it + 1)), by simp, rfl⟩
              exact ⟨r1, r2.trans (by omega), r3.trans (by omega)⟩
            | some kwargs =>
              simp only [runLoopAux, htrim, hpf, if_false, hcf, hp]
              obtain ⟨r1, r2, r3⟩ := ih
                ((trimmed ++ [userMsg (env.observationText (it + 1))]) ++
                  [toolMsg tc.id tc.name (call_tool env.tools tc.name kwargs)])
                (it + 1) (att + 1) rest (inv ++ [(tc.name, kwargs)]) hall2 hlen2
                ⟨userMsg (env.observationText (it + 1)), by simp, rfl⟩
              exact ⟨r1, r2.trans (by omega), r3.trans (by omega)⟩
          · have hct : (content ≠ "") = True := by simp [hc]
            cases hp : env.parseJson tc.arguments with
            | none =>
              simp only [runLoopAux, htrim, hpf, if_false, hct, if_true, hp]
              obtain ⟨r1, r2, r3⟩ := ih
                (((trimmed ++ [userMsg (env.observationText (it + 1))]) ++
                    [assistantMsg content (tc :: more)]) ++
                  [userMsg (invalidArgsMsg tc.name)])
                (it + 1) (att + 1) rest inv hall2 hlen2
                ⟨userMsg (env.observationText (it + 1)), by simp, rfl⟩
              exact ⟨r1, r2.trans (by omega), r3.trans (by omega)⟩
            | some kwargs =>
              simp only [runLoopAux, htrim, hpf, if_false, hct, if_true, hp]
              obtain ⟨r1, r2, r3⟩ := ih
                (((trimmed ++ [userMsg (env.observationText (it + 1))]) ++
                    [assistantMsg content (tc :: more)]) ++
                  [toolMsg tc.id tc.name (call_tool env.tools tc.name kwargs)])
                (it + 1) (att + 1) rest (inv ++ [(tc.name, kwargs)]) hall2 hlen2
                ⟨userMsg (env.observationText (it + 1)), by simp, rfl⟩
              exact ⟨r1, r2.trans (by omega), r3.trans (by omega)⟩

/-- C5: if every decision response requests a tool call, the loop performs
exactly 50 iterations (`max_iterations`) and stops with the iteration-limit
outcome — a graceful stop distinct from the fatal-error stops — issuing
exactly 50 decision calls and never starting a 51st iteration. -/
theorem loop_stops_on_limit_at_50 (env : AgentEnv)
    (systemPrompt userPrompt : String) (script : List LLMOutcome)
    (hpage : env.hasPage = true)
    (hall : ∀ o ∈ script, requestsToolCall o = true)
    (hlen : 50 ≤ script.length) :
    (runAgentLoop env systemPrompt userPrompt script).reason =
        .stoppedOnLimit ∧
      (runAgentLoop env systemPrompt userPrompt script).currentIteration = 50 ∧
      (runAgentLoop env systemPrompt userPrompt script).decisionAttempts = 50 := by
  have h := runLoopAux_all_tool_calls env hpage maxIterations
    [systemMsg systemPrompt, userMsg s!"Цель: {userPrompt}"] 0 0 script []
    hall (by simpa [maxIterations] using hlen)
    ⟨userMsg s!"Цель: {userPrompt}", by simp, rfl⟩
  exact ⟨h.1, h.2.1, h.2.2⟩

/-- A script of 50 decision responses, each requesting a click. -/
def limitScript : List LLMOutcome :=
  List.replicate 50 (.success "жму" [⟨"call_1", "click_element", "{}"⟩])

/-- Witness for C5: the concrete 50-tool-call script stops on the limit at
iteration 50 with 50 decision calls. -/
theorem loop_stops_on_limit_at_50_witness :
    (runAgentLoop demoEnv "s" "t" limitScript).reason = .stoppedOnLimit ∧
      (runAgentLoop demoEnv "s" "t" limitScript).currentIteration = 50 ∧
      (runAgentLoop demoEnv "s" "t" limitScript).decisionAttempts = 50 :=
  loop_stops_on_limit_at_50 demoEnv "s" "t" limitScript rfl (by decide) (by decide)

/-- C4 counterexample: a non-quota rate limit on call 1 and a final answer on
call 2.  The loop's `continue` re-enters the while-body, so a second
observation message is appended before the retry and the iteration counter
ends at 2 — refuting both "no new observation message is appended before the
retry" and "the iteration counter equals 1". -/
theorem rate_limit_retry_counterexample :
    (runAgentLoop demoEnv "s" "t"
        [.rateLimit false, .success "Готово" []]).reason = .done "Готово" ∧
      (runAgentLoop demoEnv "s" "t"
        [.rateLimit false, .success "Готово" []]).decisionAttempts = 2 ∧
      (runAgentLoop demoEnv "s" "t"
        [.rateLimit false, .success "Готово" []]).messages =
        [systemMsg "s", userMsg "Цель: t", userMsg "страница",
         userMsg "страница", assistantMsg "Готово" []] ∧
      (runAgentLoop demoEnv "s" "t"
        [.rateLimit false, .success "Готово" []]).currentIteration = 2 ∧
      (runAgentLoop demoEnv "s" "t"
        [.rateLimit false, .success "Готово" []]).currentIteration ≠ 1 :=
  ⟨rfl, rfl, rfl, rfl, by decide⟩

/-- C4 (amended): on a non-quota rate-limit error the loop waits briefly and
`continue`s: the failed attempt appends nothing itself, but the loop
re-enters the while-body — incrementing the iteration counter and appending
a fresh observation — before re-issuing the decision call with the next
outcome; a failure followed by a successful final answer therefore ends with
2 decision attempts and iteration counter 2. -/
theorem rate_limit_retry_next_iteration (env : AgentEnv) (fuel it att : Nat)
    (msgs trimmed : List Message) (rest : List LLMOutcome)
    (inv : List (String × ArgsMap))
    (hpage : env.hasPage = true)
    (htrim : trimContext env.maxContextMessages msgs = some trimmed) :
    runLoopAux env (fuel + 1) msgs it (.rateLimit false :: rest) att inv =
      runLoopAux env fuel
        (trimmed ++ [userMsg (env.observationText (it + 1))]) (it + 1) rest
        (att + 1) inv := by
  have hpf : (env.hasPage = false) = False := by simp [hpage]
  simp only [runLoopAux, htrim, hpf, if_false]

/-- Witness for C4 (amended): the first loop pass under a rate-limit outcome
reduces to the next pass with the observation appended and both counters
advanced. -/
theorem rate_limit_retry_next_iteration_witness :
    runLoopAux demoEnv 50 [systemMsg "s", userMsg "Цель: t"] 0
        [.rateLimit false, .success "Готово" []] 0 [] =
      runLoopAux demoEnv 49
        ([systemMsg "s", userMsg "Цель: t"] ++
          [userMsg (demoEnv.observationText 1)]) 1
        [.success "Готово" []] 1 [] :=
  rate_limit_retry_next_iteration demoEnv 49 0 0
    [systemMsg "s", userMsg "Цель: t"] [systemMsg "s", userMsg "Цель: t"]
    [.success "Готово" []] [] rfl rfl

/-- C9: a fatal decision-call failure (authentication error, or rate limit
classified as `insufficient_quota`) stops the loop at once with no
transcript mutation after the failure: the final messages are exactly the
trimmed list plus the fresh observation — precisely the transcript passed
into the failed call — and no tool invocation is recorded. -/
theorem fatal_llm_error_preserves_transcript (env : AgentEnv)
    (fuel it att : Nat) (msgs trimmed : List Message) (o : LLMOutcome)
    (rest : List LLMOutcome) (inv : List (String × ArgsMap))
    (hpage : env.hasPage = true)
    (htrim : trimContext env.maxContextMessages msgs = some trimmed)
    (hfatal : o = .authError ∨ o = .rateLimit true) :
    (runLoopAux env (fuel + 1) msgs it (o :: rest) att inv).messages =
        trimmed ++ [userMsg (env.observationText (it + 1))] ∧
      ((runLoopAux env (fuel + 1) msgs it (o :: rest) att inv).reason =
          .fatalAuthError ∨
        (runLoopAux env (fuel + 1) msgs it (o :: rest) att inv).reason =
          .fatalQuotaError) ∧
      (runLoopAux env (fuel + 1) msgs it (o :: rest) att inv).toolInvocations =
        inv := by
  have hpf : (env.hasPage = false) = False := by simp [hpage]
  rcases hfatal with h | h
  · subst h
    simp [runLoopAux, htrim, hpf]
  · subst h
    simp [runLoopAux, htrim, hpf]

/-- Witness for C9: an authentication failure on the very first decision
call leaves exactly the system, goal and one observation message, and an
empty tool log. -/
theorem fatal_llm_error_preserves_transcript_witness :
    (runLoopAux demoEnv 50 [systemMsg "s", userMsg "Цель: t"] 0
        [.authError] 0 []).messages =
        [systemMsg "s", userMsg "Цель: t"] ++
          [userMsg (demoEnv.observationText 1)] ∧
      ((runLoopAux demoEnv 50 [systemMsg "s", userMsg "Цель: t"] 0
          [.authError] 0 []).reason = .fatalAuthError ∨
        (runLoopAux demoEnv 50 [systemMsg "s", userMsg "Цель: t"] 0
          [.authError] 0 []).reason = .fatalQuotaError) ∧
      (runLoopAux demoEnv 50 [systemMsg "s", userMsg "Цель: t"] 0
        [.authError] 0 []).toolInvocations = [] :=
  fatal_llm_error_preserves_transcript demoEnv 49 0 0
    [systemMsg "s", userMsg "Цель: t"] [systemMsg "s", userMsg "Цель: t"]
    .authError [] [] rfl rfl (.inl rfl)

/-- C6 counterexample: a tool call with an unparsable argument payload, then
a final answer.  The tool is indeed not invoked and the corrective message
is appended, but the `continue` re-enters the while-body, so the iteration
counter ends at 2 — refuting "continues without incrementing past this
step". -/
theorem malformed_args_counterexample :
    (runAgentLoop demoEnv "s" "t"
        [.success "думаю" [⟨"call_1", "click_element", "oops"⟩],
         .success "Готово" []]).toolInvocations = [] ∧
      (runAgentLoop demoEnv "s" "t"
        [.success "думаю" [⟨"call_1", "click_element", "oops"⟩],
         .success "Готово" []]).messages =
        [systemMsg "s", userMsg "Цель: t", userMsg "страница",
         assistantMsg "думаю" [⟨"call_1", "click_element", "oops"⟩],
         userMsg (invalidArgsMsg "click_element"), userMsg "страница",
         assistantMsg "Готово" []] ∧
      (runAgentLoop demoEnv "s" "t"
        [.success "думаю" [⟨"call_1", "click_element", "oops"⟩],
         .success "Готово" []]).currentIteration = 2 ∧
      (runAgentLoop demoEnv "s" "t"
        [.success "думаю" [⟨"call_1", "click_element", "oops"⟩],
         .success "Готово" []]).currentIteration ≠ 1 :=
  ⟨rfl, rfl, rfl, by decide⟩

/-- C6 (amended): when the requested tool call's argument payload fails to
parse, the tool is not invoked — the invocation log is untouched and
`call_tool` is never reached — a corrective message describing the
malformed-argument condition is appended, and the loop continues with the
next iteration (the counter increments), so the model can retry with valid
syntax. -/
theorem malformed_args_no_tool_call (env : AgentEnv) (fuel it att : Nat)
    (msgs trimmed : List Message) (content : String) (tc : ToolCall)
    (more : List ToolCall) (rest : List LLMOutcome)
    (inv : List (String × ArgsMap))
    (hpage : env.hasPage = true)
    (htrim : trimContext env.maxContextMessages msgs = some trimmed)
    (hparse : env.parseJson tc.arguments = none) :
    runLoopAux env (fuel + 1) msgs it
        (.success content (tc :: more) :: rest) att inv =
      runLoopAux env fuel
        ((if content ≠ "" then
            (trimmed ++ [userMsg (env.observationText (it + 1))]) ++
              [assistantMsg content (tc :: more)]
          else trimmed ++ [userMsg (env.observationText (it + 1))]) ++
          [userMsg (invalidArgsMsg tc.name)])
        (it + 1) rest (att + 1) inv := by
  have hpf : (env.hasPage = false) = False := by simp [hpage]
  simp only [runLoopAux, htrim, hpf, if_false, hparse]

/-- Witness for C6 (amended): concrete first pass with an unparsable payload
reduces to the next pass carrying the corrective message and an unchanged
(empty) tool log. -/
theorem malformed_args_no_tool_call_witness :
    runLoopAux demoEnv 50 [systemMsg "s", userMsg "Цель: t"] 0
        [.success "думаю" [⟨"call_1", "click_element", "oops"⟩]] 0 [] =
      runLoopAux demoEnv 49
        ((if ("думаю" : String) ≠ "" then
            ([systemMsg "s", userMsg "Цель: t"] ++
              [userMsg (demoEnv.observationText 1)]) ++
              [assistantMsg "думаю" [⟨"call_1", "click_element", "oops"⟩]]
          else [systemMsg "s", userMsg "Цель: t"] ++
            [userMsg (demoEnv.observationText 1)]) ++
          [userMsg (invalidArgsMsg "click_element")])
        1 [] 1 [] :=
  malformed_args_no_tool_call demoEnv 49 0 0
    [systemMsg "s", userMsg "Цель: t"] [systemMsg "s", userMsg "Цель: t"]
    "думаю" ⟨"call_1", "click_element", "oops"⟩ [] [] [] rfl rfl rfl

/-- C3 (code bug): when a decision response carries a tool call but an empty
content (Python `None`), the assistant append at src/agent/core.py:212-234
is skipped — it is guarded by `if response_message.content:` — yet the tool
branch still runs, so the tool-result message lands immediately after the
user observation and the spec §3 transcript invariant (every tool message
correlated to the immediately preceding assistant message) is violated. -/
theorem tool_result_without_assistant_bug :
    (runAgentLoop demoEnv "s" "t"
        [.success "" [⟨"call_1", "click_element", "{}"⟩],
         .success "Готово" []]).messages =
        [systemMsg "s", userMsg "Цель: t", userMsg "страница",
         toolMsg "call_1" "click_element"
           "Успешно нажат элемент с идентификатором ai-id-1.",
         userMsg "страница", assistantMsg "Готово" []] ∧
      transcriptInvariant (runAgentLoop demoEnv "s" "t"
        [.success "" [⟨"call_1", "click_element", "{}"⟩],
         .success "Готово" []]).messages = false :=
  ⟨rfl, rfl⟩

/-- C7 counterexample: a well-paired transcript (assistant tool-call message
followed by its tool result) trimmed to a window of 4.  The kept window is a
raw suffix, so the tool-result message survives while its originating
assistant message is dropped — the orphaned tool-result is kept, not
dropped. -/
theorem trim_orphan_tool_result_counterexample :
    noDanglingToolResult
        [systemMsg "s", userMsg "Цель: t",
         assistantMsg "жму" [⟨"call_1", "click_element", "{}"⟩],
         toolMsg "call_1" "click_element" "ок", userMsg "страница"] = true ∧
      trimContext 4
        [systemMsg "s", userMsg "Цель: t",
         assistantMsg "жму" [⟨"call_1", "click_element", "{}"⟩],
         toolMsg "call_1" "click_element" "ок", userMsg "страница"] =
        some [systemMsg "s", userMsg "Цель: t",
          toolMsg "call_1" "click_element" "ок", userMsg "страница"] ∧
      noDanglingToolResult
        [systemMsg "s", userMsg "Цель: t",
         toolMsg "call_1" "click_element" "ок", userMsg "страница"] = false :=
  ⟨rfl, rfl, rfl⟩

theorem cons_get_drop_sublist {α : Type} :
    ∀ (l : List α) (k : Nat) (x : α), l[k]? = some x →
      ∀ s : List α, s.Sublist (l.drop (k + 1)) → (x :: s).Sublist l := by
  intro l
  induction l with
  | nil => intro k x hk; simp at hk
  | cons y t ih =>
    intro k x hk s hs
    cases k with
    | zero =>
      simp only [List.getElem?_cons_zero, Option.some.injEq] at hk
      subst hk
      exact List.Sublist.cons₂ _ (by simpa using hs)
    | succ k =>
      have hk2 : t[k]? = some x := by simpa using hk
      have hs2 : s.Sublist (t.drop (k + 1)) := by simpa using hs
      exact List.Sublist.cons _ (ih k x hk2 s hs2)

/-- C7 (amended): for every message list whose first message is the system
message, `trim` preserves relative message order — the trimmed list is a
subsequence of the input.  The pairing half of the original claim is false
(see the counterexample): the kept window is a raw suffix, so a tool-role
message may survive while its originating assistant tool-call message is
dropped; the orphaned tool-result is kept rather than dropped. -/
theorem trim_result_sublist (maxCtx : Nat) (m0 : Message)
    (rest result : List Message)
    (h0 : isSystem m0 = true)
    (h : trimContext maxCtx (m0 :: rest) = some result) :
    result.Sublist (m0 :: rest) := by
  by_cases hlen : (m0 :: rest).length ≤ maxCtx
  · unfold trimContext at h
    rw [if_pos hlen] at h
    cases h
    exact List.Sublist.refl _
  · unfold trimContext at h
    rw [if_neg hlen] at h
    have hu0 : isUser m0 = false := by
      simp only [isSystem, beq_iff_eq] at h0
      simp [isUser, h0]
    have hsys : (m0 :: rest).findIdx? isSystem = some 0 := by
      simp [List.findIdx?_cons, h0]
    cases hgu : rest.findIdx? isUser with
    | none =>
      have hfu : (m0 :: rest).findIdx? isUser = none := by
        simp [List.findIdx?_cons, hu0, hgu]
      simp only [hsys, hfu] at h
      exact absurd h (by simp)
    | some gu =>
      have hfu : (m0 :: rest).findIdx? isUser = some (gu + 1) := by
        simp [List.findIdx?_cons, hu0, List.findIdx?_succ, hgu]
      have hlt : gu < rest.length :=
        (List.findIdx?_eq_some_iff_findIdx_eq.mp hgu).1
      have hG : rest[gu]? = some rest[gu] := List.getElem?_eq_getElem hlt
      simp only [hsys, hfu, List.getElem?_cons_zero, List.getElem?_cons_succ,
        hG, Option.toList_some, List.drop_succ_cons] at h
      have hne : (some (gu + 1) : Option Nat) ≠ some 0 := by simp
      rw [if_pos hne] at h
      split at h
      · cases h
        refine List.Sublist.cons₂ _ (cons_get_drop_sublist rest gu _ hG _ ?_)
        exact (List.drop_sublist _ _).trans (List.filter_sublist _)
      · cases h
        refine List.Sublist.cons₂ _ (cons_get_drop_sublist rest gu _ hG _ ?_)
        exact List.nil_sublist _

/-- Witness for C7 (amended): the trimmed window of the counterexample
transcript is a subsequence of the input transcript. -/
theorem trim_result_sublist_witness :
    ([systemMsg "s", userMsg "Цель: t",
      toolMsg "call_1" "click_element" "ок",
      userMsg "страница"] : List Message).Sublist
      [systemMsg "s", userMsg "Цель: t",
       assistantMsg "жму" [⟨"call_1", "click_element", "{}"⟩],
       toolMsg "call_1" "click_element" "ок", userMsg "страница"] :=
  trim_result_sublist 4 (systemMsg "s")
    [userMsg "Цель: t", assistantMsg "жму" [⟨"call_1", "click_element", "{}"⟩],
     toolMsg "call_1" "click_element" "ок", userMsg "страница"]
    [systemMsg "s", userMsg "Цель: t", toolMsg "call_1" "click_element" "ок",
     userMsg "страница"] rfl rfl
